import Mathlib

/-!
Verification of the event-log normalization and start/complete matching core of
the process-performance-indicators repository, shallowly embedded in Lean.

Timestamps are modelled as integers: the source parses them into pandas
datetimes and only ever compares them, so any linearly ordered carrier is
faithful.  Lifecycle values in `match.py` are raw strings compared against the
literals "start" and "complete", and are modelled as strings there; the
`formatting` module uses the `LifecycleTransitionType` enum and is modelled
with an enum.
-/

namespace PPI

/-- One row of a case log as consumed by `match.py`: case id, activity name,
lifecycle transition (a raw string in this module) and timestamp. -/
structure EventRow where
  case_id : String
  activity : String
  lifecycle_transition : String
  timestamp : Int
deriving DecidableEq, Repr

/-- The boolean row filter of `match.py` lines 26-31: same case id, same
activity, lifecycle transition is the string "start", and timestamp earlier
than or equal to the complete event timestamp. -/
def is_potential_match (complete_event e : EventRow) : Bool :=
  e.case_id == complete_event.case_id &&
  e.activity == complete_event.activity &&
  e.lifecycle_transition == "start" &&
  decide (e.timestamp ≤ complete_event.timestamp)

/-- The filtered candidate pool `potential_matches` of `match.py` lines 26-31,
in the row order of the case log (pandas boolean indexing keeps row order). -/
def potential_matches (case_log : List EventRow) (complete_event : EventRow) : List EventRow :=
  case_log.filter (fun e => is_potential_match complete_event e)

/-- One comparison step of `idxmax`: keep the current maximum unless the next
row has a strictly larger timestamp, so the earliest row attaining the maximum
wins, exactly as `Series.idxmax` returns the first index of the maximum. -/
def pickLater (a b : EventRow) : EventRow :=
  if a.timestamp < b.timestamp then b else a

/-- The selection `potential_matches.loc[pd.to_datetime(...).idxmax()]` of
`match.py` line 38: the first row of the pool whose timestamp attains the
maximum (row labels of the filtered frame are distinct, so `idxmax` plus `loc`
is exactly the first row attaining the maximum timestamp). -/
def idxmax_row : List EventRow → Option EventRow
  | [] => none
  | x :: xs => some (xs.foldl pickLater x)

/-- The `match` function of `match.py` lines 5-40 (named `match_event` here
because `match` is reserved in Lean): raises when the given event is not a
complete event, returns the complete event itself when the candidate pool is
empty, otherwise returns the most recent candidate start event. -/
def match_event (case_log : List EventRow) (complete_event : EventRow) : Except String EventRow :=
  if complete_event.lifecycle_transition ≠ "complete" then
    Except.error "The provided event is not a complete event"
  else
    match idxmax_row (potential_matches case_log complete_event) with
    | none => Except.ok complete_event
    | some matching_start => Except.ok matching_start

/-- The loop body of `match_all` in `match.py` lines 55-60: iterate over the
complete events in row order and pair each with the result of `match` applied
to the whole case log. -/
def match_all_loop (case_log : List EventRow) :
    List EventRow → Except String (List (EventRow × EventRow))
  | [] => Except.ok []
  | complete_event :: rest => do
    let start_event ← match_event case_log complete_event
    let tail ← match_all_loop case_log rest
    Except.ok ((start_event, complete_event) :: tail)

/-- The `match_all` function of `match.py` lines 44-60: select the complete
events of the case log and match each one against the full case log. -/
def match_all (case_log : List EventRow) : Except String (List (EventRow × EventRow)) :=
  match_all_loop case_log (case_log.filter (fun e => e.lifecycle_transition == "complete"))

/-- What `match` returns for a complete event, as a total function: the first
candidate attaining the maximal timestamp, or the complete event itself when
the pool is empty. -/
def selected_start (case_log : List EventRow) (complete_event : EventRow) : EventRow :=
  (idxmax_row (potential_matches case_log complete_event)).getD complete_event

/-- The consume-once property claimed of the matcher: among the pairs produced
by `match_all`, two complete events processed at distinct positions are never
matched to one and the same start event. -/
def consume_once_property (case_log : List EventRow) : Prop :=
  ∀ ms, match_all case_log = Except.ok ms →
    ∀ i j : Fin ms.length, i ≠ j →
      (ms.get i).1.lifecycle_transition = "start" →
      (ms.get j).1.lifecycle_transition = "start" →
      (ms.get i).1 ≠ (ms.get j).1

lemma match_event_ok_of_complete (case_log : List EventRow) (c : EventRow)
    (hc : c.lifecycle_transition = "complete") :
    match_event case_log c = Except.ok (selected_start case_log c) := by
  unfold match_event selected_start
  rw [if_neg (by simp [hc])]
  cases idxmax_row (potential_matches case_log c) <;> rfl

lemma match_all_loop_ok (case_log : List EventRow) (l : List EventRow)
    (h : ∀ c ∈ l, c.lifecycle_transition = "complete") :
    match_all_loop case_log l =
      Except.ok (l.map (fun c => (selected_start case_log c, c))) := by
  induction l with
  | nil => rfl
  | cons c rest ih =>
    have hc : c.lifecycle_transition = "complete" := h c (List.mem_cons_self c rest)
    have hrest : ∀ x ∈ rest, x.lifecycle_transition = "complete" :=
      fun x hx => h x (List.mem_cons_of_mem c hx)
    show (do
      let start_event ← match_event case_log c
      let tail ← match_all_loop case_log rest
      Except.ok ((start_event, c) :: tail)) = _
    rw [match_event_ok_of_complete case_log c hc, ih hrest]
    rfl

lemma foldl_pickLater_mem (xs : List EventRow) (x : EventRow) :
    xs.foldl pickLater x ∈ x :: xs := by
  induction xs generalizing x with
  | nil => simp [List.foldl]
  | cons y ys ih =>
    simp only [List.foldl]
    have h := ih (pickLater x y)
    have hxy : pickLater x y = x ∨ pickLater x y = y := by
      unfold pickLater; split <;> simp
    rcases List.mem_cons.mp h with h1 | h2
    · rw [h1]
      rcases hxy with e | e <;> rw [e] <;> simp
    · simp [h2]

lemma foldl_pickLater_ge_head (xs : List EventRow) (x : EventRow) :
    x.timestamp ≤ (xs.foldl pickLater x).timestamp := by
  induction xs generalizing x with
  | nil => simp [List.foldl]
  | cons y ys ih =>
    simp only [List.foldl]
    have hx : x.timestamp ≤ (pickLater x y).timestamp := by
      unfold pickLater; split <;> omega
    exact le_trans hx (ih (pickLater x y))

lemma foldl_pickLater_ge (xs : List EventRow) (x r : EventRow) (hr : r ∈ x :: xs) :
    r.timestamp ≤ (xs.foldl pickLater x).timestamp := by
  induction xs generalizing x with
  | nil =>
    have : r = x := by simpa using hr
    simp [List.foldl, this]
  | cons y ys ih =>
    simp only [List.foldl]
    have hx : x.timestamp ≤ (pickLater x y).timestamp := by
      unfold pickLater; split <;> omega
    have hy : y.timestamp ≤ (pickLater x y).timestamp := by
      unfold pickLater; split <;> omega
    have hhead : (pickLater x y).timestamp ≤ (ys.foldl pickLater (pickLater x y)).timestamp :=
      foldl_pickLater_ge_head ys (pickLater x y)
    rcases List.mem_cons.mp hr with h1 | h2
    · subst h1; exact le_trans hx hhead
    · rcases List.mem_cons.mp h2 with h2a | h2b
      · subst h2a; exact le_trans hy hhead
      · exact ih (pickLater x y) (List.mem_cons_of_mem _ h2b)

lemma idxmax_row_spec (l : List EventRow) (hne : l ≠ []) :
    ∃ m, idxmax_row l = some m ∧ m ∈ l ∧ ∀ r ∈ l, r.timestamp ≤ m.timestamp := by
  obtain ⟨x, xs, rfl⟩ := List.exists_cons_of_ne_nil hne
  exact ⟨xs.foldl pickLater x, rfl, foldl_pickLater_mem xs x,
    fun r hr => foldl_pickLater_ge xs x r hr⟩

/-- C2 — LIFO tie-break: for every case log and complete event with a nonempty
candidate pool, `match` succeeds and returns a candidate start event whose
timestamp is maximal among all candidates (the most recently started instance
not exceeding the complete timestamp). -/
theorem match_selects_latest_start (case_log : List EventRow) (complete_event : EventRow)
    (hc : complete_event.lifecycle_transition = "complete")
    (hne : potential_matches case_log complete_event ≠ []) :
    ∃ s, match_event case_log complete_event = Except.ok s ∧
      s ∈ potential_matches case_log complete_event ∧
      ∀ r ∈ potential_matches case_log complete_event, r.timestamp ≤ s.timestamp := by
  obtain ⟨m, hm, hmem, hmax⟩ := idxmax_row_spec (potential_matches case_log complete_event) hne
  refine ⟨m, ?_, hmem, hmax⟩
  unfold match_event
  rw [if_neg (by simp [hc]), hm]

/-- Concrete scenario of C2: three start events at t = 1, 2, 3 for one case
and activity and one complete event at t = 5; the matcher selects a maximal
candidate, and that selected event is the start at t = 3. -/
def c2_start_one : EventRow := { case_id := "c1", activity := "A", lifecycle_transition := "start", timestamp := 1 }

def c2_start_two : EventRow := { case_id := "c1", activity := "A", lifecycle_transition := "start", timestamp := 2 }

def c2_start_three : EventRow := { case_id := "c1", activity := "A", lifecycle_transition := "start", timestamp := 3 }

def c2_complete : EventRow := { case_id := "c1", activity := "A", lifecycle_transition := "complete", timestamp := 5 }

def c2_case_log : List EventRow := [c2_start_one, c2_start_two, c2_start_three, c2_complete]

theorem match_selects_latest_start_witness :
    (∃ s, match_event c2_case_log c2_complete = Except.ok s ∧
      s ∈ potential_matches c2_case_log c2_complete ∧
      ∀ r ∈ potential_matches c2_case_log c2_complete, r.timestamp ≤ s.timestamp) ∧
    match_event c2_case_log c2_complete = Except.ok c2_start_three :=
  ⟨match_selects_latest_start c2_case_log c2_complete rfl (by decide), rfl⟩

/-- C3 — unmatched-complete fallback: for every complete event whose candidate
pool is empty, `match` returns the complete event itself, and no error is
raised. -/
theorem match_unmatched_fallback (case_log : List EventRow) (complete_event : EventRow)
    (hc : complete_event.lifecycle_transition = "complete")
    (hempty : potential_matches case_log complete_event = []) :
    match_event case_log complete_event = Except.ok complete_event := by
  unfold match_event
  rw [if_neg (by simp [hc]), hempty]
  rfl

def c3_complete : EventRow := { case_id := "c9", activity := "B", lifecycle_transition := "complete", timestamp := 5 }

def c3_case_log : List EventRow :=
  [{ case_id := "c9", activity := "B", lifecycle_transition := "start", timestamp := 7 }, c3_complete]

theorem match_unmatched_fallback_witness :
    match_event c3_case_log c3_complete = Except.ok c3_complete :=
  match_unmatched_fallback c3_case_log c3_complete rfl (by decide)

/-- Case log refuting the consume-once claim: one start at t = 1 followed by
two complete events at t = 2 and t = 3, all for one case and activity. -/
def c1_case_log : List EventRow :=
  [{ case_id := "c1", activity := "A", lifecycle_transition := "start", timestamp := 1 },
   { case_id := "c1", activity := "A", lifecycle_transition := "complete", timestamp := 2 },
   { case_id := "c1", activity := "A", lifecycle_transition := "complete", timestamp := 3 }]

/-- C1 counterexample — the matcher does not consume start events: on
`c1_case_log`, `match_all` pairs both complete events with the single start
event at t = 1, so a start already selected for one complete is matched again
to a later complete of the same case and activity. -/
theorem consume_once_refuted : ¬ consume_once_property c1_case_log := by
  intro h
  have hms : match_all c1_case_log = Except.ok
      [({ case_id := "c1", activity := "A", lifecycle_transition := "start", timestamp := 1 },
        { case_id := "c1", activity := "A", lifecycle_transition := "complete", timestamp := 2 }),
       ({ case_id := "c1", activity := "A", lifecycle_transition := "start", timestamp := 1 },
        { case_id := "c1", activity := "A", lifecycle_transition := "complete", timestamp := 3 })] := rfl
  exact h _ hms ⟨0, by decide⟩ ⟨1, by decide⟩ (by decide) rfl rfl rfl

/-- C1 amended — no consumption happens: `match_all` pairs every complete
event of the case log with the start selected by `match` over the full,
unreduced candidate pool, independently of all other complete events. -/
theorem match_all_no_consumption (case_log : List EventRow) :
    match_all case_log = Except.ok
      ((case_log.filter (fun e => e.lifecycle_transition == "complete")).map
        (fun c => (selected_start case_log c, c))) := by
  unfold match_all
  refine match_all_loop_ok case_log _ (fun c hc => ?_)
  have := List.of_mem_filter hc
  simpa using this

/-- The `safe_division` helper of `utils/safe_division.py`: raises a dedicated
division error when the denominator is zero, otherwise returns the quotient.
Python floats are modelled as rationals; the zero test of the source is an
exact comparison, which the model shares. -/
def safe_division (numerator denominator : ℚ) : Except String ℚ :=
  if denominator = 0 then
    Except.error ("Error performing indicator division. Numerator value=" ++
      toString numerator ++ ", denominator value=" ++ toString denominator)
  else
    Except.ok (numerator / denominator)

/-- C9 — zero-denominator division: `safe_division` raises the dedicated
division error exactly when the denominator equals zero (it never silently
succeeds there, and the rational result excludes infinities and NaN), and
returns numerator divided by denominator otherwise. -/
theorem safe_division_spec (numerator denominator : ℚ) :
    ((∃ e, safe_division numerator denominator = Except.error e) ↔ denominator = 0) ∧
    (denominator ≠ 0 →
      safe_division numerator denominator = Except.ok (numerator / denominator)) := by
  constructor
  · constructor
    · rintro ⟨e, he⟩
      by_contra hz
      rw [safe_division, if_neg hz] at he
      exact Except.noConfusion he
    · intro hz
      exact ⟨_, by rw [safe_division, if_pos hz]⟩
  · intro hz
    rw [safe_division, if_neg hz]

theorem safe_division_spec_witness :
    (∃ e, safe_division 1 0 = Except.error e) ∧ safe_division 6 3 = Except.ok 2 := by
  refine ⟨(safe_division_spec 1 0).1.mpr rfl, ?_⟩
  have h := (safe_division_spec 6 3).2 (by norm_num)
  norm_num at h
  exact h

/-- The event-log type enum of `formatting/log_formatter.py` (EventLogType). -/
inductive EventLogType
  | ATOMIC
  | DERIVABLE_INTERVAL
  | PRODUCTION_STYLE
  | EXPLICIT_INTERVAL
deriving DecidableEq, Repr

/-- The `StandardColumnMapping` dataclass of `column_mapping.py`: three
mandatory column keys and the optional column keys, absent ones being `none`
(Python `None`). -/
structure StandardColumnMapping where
  case_id_key : String
  activity_key : String
  timestamp_key : String
  start_timestamp_key : Option String := none
  total_cost_key : Option String := none
  human_resource_key : Option String := none
  role_key : Option String := none
  resource_key : Option String := none
  outcome_unit_key : Option String := none
  fixed_cost_key : Option String := none
  variable_cost_key : Option String := none
  labor_cost_key : Option String := none
  inventory_cost_key : Option String := none
  client_key : Option String := none
  maintenance_cost_key : Option String := none
  missed_deadline_cost_key : Option String := none
  transportation_cost_key : Option String := none
  warehousing_cost_key : Option String := none
  quality_key : Option String := none
  lifecycle_type_key : Option String := none
  instance_key : Option String := none
deriving DecidableEq, Repr

/-- The `_detect_log_type` function of `formatting/log_formatter.py` lines
26-53: classify the mapping by which optional fields are provided, evaluating
the four conditions in priority order, first match wins. -/
def detect_log_type (column_mapping : StandardColumnMapping) : EventLogType :=
  let has_lifecycle := column_mapping.lifecycle_type_key.isSome
  let has_instance := column_mapping.instance_key.isSome
  let has_start_timestamp := column_mapping.start_timestamp_key.isSome
  if has_lifecycle && has_instance then EventLogType.EXPLICIT_INTERVAL
  else if has_lifecycle && !has_instance then EventLogType.DERIVABLE_INTERVAL
  else if has_start_timestamp && !has_lifecycle then EventLogType.PRODUCTION_STYLE
  else EventLogType.ATOMIC

/-- C5 — classification priority chain: the classifier is a pure function of
which mapping fields are present and returns EXPLICIT_INTERVAL exactly when
lifecycle and instance fields are both present, DERIVABLE_INTERVAL exactly
when lifecycle is present and instance absent, PRODUCTION_STYLE exactly when
start timestamp is present and lifecycle absent, and ATOMIC exactly when both
lifecycle and start timestamp are absent. -/
theorem detect_log_type_priority (m : StandardColumnMapping) :
    (detect_log_type m = EventLogType.EXPLICIT_INTERVAL ↔
      m.lifecycle_type_key.isSome = true ∧ m.instance_key.isSome = true) ∧
    (detect_log_type m = EventLogType.DERIVABLE_INTERVAL ↔
      m.lifecycle_type_key.isSome = true ∧ m.instance_key.isSome = false) ∧
    (detect_log_type m = EventLogType.PRODUCTION_STYLE ↔
      m.start_timestamp_key.isSome = true ∧ m.lifecycle_type_key.isSome = false) ∧
    (detect_log_type m = EventLogType.ATOMIC ↔
      m.lifecycle_type_key.isSome = false ∧ m.start_timestamp_key.isSome = false) := by
  cases hl : m.lifecycle_type_key <;> cases hi : m.instance_key <;>
    cases hs : m.start_timestamp_key <;>
    simp [detect_log_type, hl, hi, hs]

def c5_mapping_atomic : StandardColumnMapping :=
  { case_id_key := "case", activity_key := "act", timestamp_key := "ts" }

def c5_mapping_derivable : StandardColumnMapping :=
  { c5_mapping_atomic with lifecycle_type_key := some "phase" }

def c5_mapping_explicit : StandardColumnMapping :=
  { c5_mapping_derivable with instance_key := some "inst" }

def c5_mapping_production : StandardColumnMapping :=
  { c5_mapping_atomic with start_timestamp_key := some "begin" }

theorem detect_log_type_priority_witness :
    detect_log_type c5_mapping_atomic = EventLogType.ATOMIC ∧
    detect_log_type c5_mapping_derivable = EventLogType.DERIVABLE_INTERVAL ∧
    detect_log_type c5_mapping_explicit = EventLogType.EXPLICIT_INTERVAL ∧
    detect_log_type c5_mapping_production = EventLogType.PRODUCTION_STYLE :=
  ⟨(detect_log_type_priority c5_mapping_atomic).2.2.2.mpr (by decide),
   ((detect_log_type_priority c5_mapping_derivable).2.1).mpr (by decide),
   (detect_log_type_priority c5_mapping_explicit).1.mpr (by decide),
   ((detect_log_type_priority c5_mapping_production).2.2.1).mpr (by decide)⟩

/-- The lifecycle transition enum of `constants.py` (LifecycleTransitionType). -/
inductive LifecycleTransitionType
  | START
  | COMPLETE
deriving DecidableEq, Repr

/-- A pandas DataFrame with its integer index: each row carries its index
label. `reset_index(drop=True)` renumbers the labels, `sort_values` reorders
rows while keeping the labels. -/
abbrev Table (ρ : Type) : Type := List (Nat × ρ)

/-- The `reset_index(drop=True)` operation: keep the rows, relabel 0, 1, .... -/
def reset_index {ρ : Type} (t : Table ρ) : Table ρ :=
  (List.range (List.length t)).zip (List.map Prod.snd t)

/-- The `pd.concat([a, b], ignore_index=True)` operation: append the rows and
renumber the index. -/
def concat_ignore_index {ρ : Type} (a b : Table ρ) : Table ρ :=
  reset_index (a ++ b)

/-- Comparison of row contents by a (case_id, timestamp) sort key,
lexicographically: this is the `sort_values(by=[case_id, timestamp])` order. -/
def key_le {ρ : Type} (key : ρ → String × Int) (a b : ρ) : Prop :=
  toLex (key a) ≤ toLex (key b)

/-- The row order used by `sort_values`: compare the contents, ignore labels. -/
def row_le {ρ : Type} (key : ρ → String × Int) (a b : Nat × ρ) : Prop :=
  key_le key a.2 b.2

instance {ρ : Type} (key : ρ → String × Int) : DecidableRel (key_le key) :=
  fun a b => inferInstanceAs (Decidable (toLex (key a) ≤ toLex (key b)))

instance {ρ : Type} (key : ρ → String × Int) : DecidableRel (row_le key) :=
  fun a b => inferInstanceAs (Decidable (key_le key a.2 b.2))

instance {ρ : Type} (key : ρ → String × Int) : IsTotal (Nat × ρ) (row_le key) :=
  ⟨fun a b => le_total (toLex (key a.2)) (toLex (key b.2))⟩

instance {ρ : Type} (key : ρ → String × Int) : IsTrans (Nat × ρ) (row_le key) :=
  ⟨fun _ _ _ hab hbc => le_trans hab hbc⟩

/-- The `sort_values(by=[case_id, timestamp])` operation: rows reordered
ascending by the key; index labels kept with their rows. -/
def sort_values {ρ : Type} (key : ρ → String × Int) (t : Table ρ) : Table ρ :=
  List.insertionSort (row_le key) t

lemma length_reset_index {ρ : Type} (t : Table ρ) :
    (reset_index t).length = List.length t := by
  unfold reset_index
  simp

lemma map_snd_reset_index {ρ : Type} (t : Table ρ) :
    List.map Prod.snd (reset_index t) = List.map Prod.snd t := by
  unfold reset_index
  exact List.map_snd_zip _ _ (by simp)

lemma map_fst_reset_index {ρ : Type} (t : Table ρ) :
    List.map Prod.fst (reset_index t) = List.range (List.length t) := by
  unfold reset_index
  exact List.map_fst_zip _ _ (by simp)

lemma length_sort_values {ρ : Type} (key : ρ → String × Int) (t : Table ρ) :
    (sort_values key t).length = List.length t :=
  List.length_insertionSort _ t

lemma map_snd_sort_values_perm {ρ : Type} (key : ρ → String × Int) (t : Table ρ) :
    (List.map Prod.snd (sort_values key t)).Perm (List.map Prod.snd t) :=
  (List.perm_insertionSort (row_le key) t).map Prod.snd

lemma sorted_map_snd_sort_values {ρ : Type} (key : ρ → String × Int) (t : Table ρ) :
    List.Sorted (key_le key) (List.map Prod.snd (sort_values key t)) := by
  have hs : List.Sorted (row_le key) (sort_values key t) :=
    List.sorted_insertionSort (row_le key) t
  exact List.pairwise_map.mpr hs

/-- A standardized atomic-log row: only case id, activity and timestamp. -/
structure AtomicRow where
  case_id : String
  activity : String
  timestamp : Int
deriving DecidableEq, Repr

/-- A standardized row carrying a lifecycle transition. -/
structure LifecycleRow where
  case_id : String
  activity : String
  timestamp : Int
  lifecycle_transition : LifecycleTransitionType
deriving DecidableEq, Repr

/-- A canonical explicit-interval row: lifecycle transition and instance id. -/
structure InstanceRow where
  case_id : String
  activity : String
  timestamp : Int
  lifecycle_transition : LifecycleTransitionType
  instance_id : Nat
deriving DecidableEq, Repr

/-- A standardized production-style row: complete timestamp in the timestamp
column and a separate start timestamp column. -/
structure ProductionRow where
  case_id : String
  activity : String
  timestamp : Int
  start_timestamp : Int
deriving DecidableEq, Repr

def lifecycle_row_key (r : LifecycleRow) : String × Int := (r.case_id, r.timestamp)

def instance_row_key (r : InstanceRow) : String × Int := (r.case_id, r.timestamp)

/-- Tag an atomic row as a complete event (`_process_atomic_log` lines
155-156: copy, same timestamp, lifecycle complete). -/
def atomic_as_complete (r : AtomicRow) : LifecycleRow :=
  { case_id := r.case_id, activity := r.activity, timestamp := r.timestamp,
    lifecycle_transition := LifecycleTransitionType.COMPLETE }

/-- Tag an atomic row as a start event (`_process_atomic_log` lines 159-160:
duplicate, same timestamp, lifecycle start). -/
def atomic_as_start (r : AtomicRow) : LifecycleRow :=
  { case_id := r.case_id, activity := r.activity, timestamp := r.timestamp,
    lifecycle_transition := LifecycleTransitionType.START }

/-- The start half of a production-style row (`_process_production_style_log`
lines 225-228): timestamp replaced by the start timestamp, start timestamp
column dropped, lifecycle start. -/
def production_as_start (r : ProductionRow) : LifecycleRow :=
  { case_id := r.case_id, activity := r.activity, timestamp := r.start_timestamp,
    lifecycle_transition := LifecycleTransitionType.START }

/-- The complete half of a production-style row
(`_process_production_style_log` lines 231-232): original timestamp kept,
start timestamp column dropped, lifecycle complete. -/
def production_as_complete (r : ProductionRow) : LifecycleRow :=
  { case_id := r.case_id, activity := r.activity, timestamp := r.timestamp,
    lifecycle_transition := LifecycleTransitionType.COMPLETE }

def with_instance_id (i : Nat) (r : LifecycleRow) : InstanceRow :=
  { case_id := r.case_id, activity := r.activity, timestamp := r.timestamp,
    lifecycle_transition := r.lifecycle_transition, instance_id := i }

/-- Modelled from the spec: the module
`process_performance_indicators/formatting/conversions.py` and its
`convert_to_explicit_interval_log` are imported by `formatting/log_formatter.py`
but are not under `src/`. Per spec sections 4.4 and 4.5 the matcher assigns an
instance identifier to each row by pairing start and complete events, and the
canonicalizer merges the rows back into one table sorted by (case_id,
timestamp) with the index reset, each row keeping its case, activity,
timestamp and lifecycle phase. The identifier given to the row with index
label i is abstracted as `assign i`, since the claims proved below do not
depend on the identifier values. -/
def convert_to_explicit_interval_log (assign : Nat → Nat) (event_log : Table LifecycleRow) :
    Table InstanceRow :=
  reset_index (sort_values instance_row_key
    (List.map (fun p => (p.1, with_instance_id (assign p.1) p.2)) event_log))

/-- The `_process_atomic_log` function of `formatting/log_formatter.py` lines
125-168: tag every row both as a complete and as a start event with the same
timestamp, concatenate, sort by (case_id, timestamp), reset the index, then
assign instance ids. Timestamp parsing (`_convert_timestamp_column`) is the
identity here because timestamps are already modelled as instants. -/
def process_atomic_log (assign : Nat → Nat) (log_df : Table AtomicRow) : Table InstanceRow :=
  let complete_events := List.map (fun p => (p.1, atomic_as_complete p.2)) log_df
  let start_events := List.map (fun p => (p.1, atomic_as_start p.2)) log_df
  let combined_log := concat_ignore_index start_events complete_events
  let combined_log := sort_values lifecycle_row_key combined_log
  let combined_log := reset_index combined_log
  convert_to_explicit_interval_log assign combined_log

/-- The `_process_production_style_log` function of
`formatting/log_formatter.py` lines 199-240: split every row into a start
event at the start timestamp and a complete event at the original timestamp,
drop the start timestamp column from both, concatenate, sort, reset the index,
then assign instance ids. -/
def process_production_style_log (assign : Nat → Nat) (log_df : Table ProductionRow) :
    Table InstanceRow :=
  let start_events := List.map (fun p => (p.1, production_as_start p.2)) log_df
  let complete_events := List.map (fun p => (p.1, production_as_complete p.2)) log_df
  let combined_log := concat_ignore_index start_events complete_events
  let combined_log := sort_values lifecycle_row_key combined_log
  let combined_log := reset_index combined_log
  convert_to_explicit_interval_log assign combined_log

/-- Forget the instance id of a canonical row. -/
def strip_instance (r : InstanceRow) : LifecycleRow :=
  { case_id := r.case_id, activity := r.activity, timestamp := r.timestamp,
    lifecycle_transition := r.lifecycle_transition }

lemma strip_with_instance (i : Nat) (r : LifecycleRow) :
    strip_instance (with_instance_id i r) = r := rfl

lemma convert_pipeline_perm (assign : Nat → Nat) (t : Table LifecycleRow) :
    (List.map (fun p => strip_instance (Prod.snd p))
        (convert_to_explicit_interval_log assign
          (reset_index (sort_values lifecycle_row_key t)))).Perm
      (List.map Prod.snd t) := by
  unfold convert_to_explicit_interval_log
  have hcomp : (fun p : Nat × InstanceRow => strip_instance (Prod.snd p)) =
      strip_instance ∘ Prod.snd := rfl
  have h1 : List.map (fun p => strip_instance (Prod.snd p))
      (reset_index (sort_values instance_row_key
        (List.map (fun p => (p.1, with_instance_id (assign p.1) p.2))
          (reset_index (sort_values lifecycle_row_key t))))) =
      List.map strip_instance (List.map Prod.snd
        (sort_values instance_row_key
          (List.map (fun p => (p.1, with_instance_id (assign p.1) p.2))
            (reset_index (sort_values lifecycle_row_key t))))) := by
    rw [hcomp, ← List.map_map, map_snd_reset_index]
  rw [h1]
  refine List.Perm.trans ((map_snd_sort_values_perm instance_row_key _).map strip_instance) ?_
  have h2 : List.map strip_instance (List.map Prod.snd
      (List.map (fun p => (p.1, with_instance_id (assign p.1) p.2))
        (reset_index (sort_values lifecycle_row_key t)))) =
      List.map Prod.snd (reset_index (sort_values lifecycle_row_key t)) := by
    rw [List.map_map, List.map_map]
    exact List.map_congr_left (fun p _ => rfl)
  rw [h2, map_snd_reset_index]
  exact map_snd_sort_values_perm lifecycle_row_key t

lemma convert_pipeline_length (assign : Nat → Nat) (t : Table LifecycleRow) :
    (convert_to_explicit_interval_log assign
      (reset_index (sort_values lifecycle_row_key t))).length = List.length t := by
  unfold convert_to_explicit_interval_log
  rw [length_reset_index, length_sort_values, List.length_map, length_reset_index,
    length_sort_values]

lemma convert_pipeline_sorted (assign : Nat → Nat) (t : Table LifecycleRow) :
    List.Sorted (key_le instance_row_key)
      (List.map Prod.snd (convert_to_explicit_interval_log assign
        (reset_index (sort_values lifecycle_row_key t)))) := by
  unfold convert_to_explicit_interval_log
  rw [map_snd_reset_index]
  exact sorted_map_snd_sort_values instance_row_key _

lemma convert_pipeline_index (assign : Nat → Nat) (t : Table LifecycleRow) :
    List.map Prod.fst (convert_to_explicit_interval_log assign
        (reset_index (sort_values lifecycle_row_key t))) =
      List.range ((convert_to_explicit_interval_log assign
        (reset_index (sort_values lifecycle_row_key t))).length) := by
  unfold convert_to_explicit_interval_log
  rw [map_fst_reset_index, length_reset_index]

lemma length_concat_ignore_index {ρ : Type} (a b : Table ρ) :
    (concat_ignore_index a b).length = a.length + b.length := by
  unfold concat_ignore_index
  rw [length_reset_index, List.length_append]

lemma map_snd_concat_ignore_index {ρ : Type} (a b : Table ρ) :
    List.map Prod.snd (concat_ignore_index a b) =
      List.map Prod.snd a ++ List.map Prod.snd b := by
  unfold concat_ignore_index
  rw [map_snd_reset_index, List.map_append]

lemma map_snd_map_pair {ρ σ : Type} (f : ρ → σ) (t : Table ρ) :
    List.map Prod.snd (List.map (fun p => (p.1, f p.2)) t) =
      List.map (fun p => f p.2) t := by
  rw [List.map_map]
  exact List.map_congr_left (fun p _ => rfl)

lemma map_snd_map_pair2 {ρ σ : Type} (f : Nat → ρ → σ) (t : Table ρ) :
    List.map Prod.snd (List.map (fun p => (p.1, f p.1 p.2)) t) =
      List.map (fun p => f p.1 p.2) t := by
  rw [List.map_map]
  exact List.map_congr_left (fun p _ => rfl)

/-- C6 — atomic splitting: processing an ATOMIC log duplicates every input row
into exactly one START-tagged and one COMPLETE-tagged output row, both with
the identical single timestamp of the input row (this is the content of the
permutation with `atomic_as_start` and `atomic_as_complete`, which copy the
row timestamp unchanged), the output row count is exactly twice the input row
count, and the final table is sorted by (case_id, timestamp) ascending with
the index reset to 0, 1, .... -/
theorem atomic_split_spec (assign : Nat → Nat) (log_df : Table AtomicRow) :
    (process_atomic_log assign log_df).length = 2 * log_df.length ∧
    (List.map (fun p => strip_instance (Prod.snd p)) (process_atomic_log assign log_df)).Perm
      (List.map (fun p => atomic_as_start (Prod.snd p)) log_df ++
        List.map (fun p => atomic_as_complete (Prod.snd p)) log_df) ∧
    List.Sorted (key_le instance_row_key)
      (List.map Prod.snd (process_atomic_log assign log_df)) ∧
    List.map Prod.fst (process_atomic_log assign log_df) =
      List.range ((process_atomic_log assign log_df).length) := by
  have hdef : process_atomic_log assign log_df =
      convert_to_explicit_interval_log assign (reset_index (sort_values lifecycle_row_key
        (concat_ignore_index (List.map (fun p => (p.1, atomic_as_start p.2)) log_df)
          (List.map (fun p => (p.1, atomic_as_complete p.2)) log_df)))) := rfl
  refine ⟨?_, ?_, ?_, ?_⟩
  · rw [hdef, convert_pipeline_length, length_concat_ignore_index]
    simp only [List.length_map]
    omega
  · rw [hdef]
    refine (convert_pipeline_perm assign _).trans ?_
    rw [map_snd_concat_ignore_index, map_snd_map_pair, map_snd_map_pair]
  · rw [hdef]
    exact convert_pipeline_sorted assign _
  · rw [hdef]
    exact convert_pipeline_index assign _

/-- C7 — production-style splitting: processing a PRODUCTION_STYLE log splits
every input row into exactly one START row whose timestamp is the row start
timestamp and one COMPLETE row whose timestamp is the row original timestamp,
both tagged with their lifecycle phase; the start timestamp column is dropped
from both output rows (the output row type carries no start timestamp field),
and the row count doubles. -/
theorem production_split_spec (assign : Nat → Nat) (log_df : Table ProductionRow) :
    (process_production_style_log assign log_df).length = 2 * log_df.length ∧
    (List.map (fun p => strip_instance (Prod.snd p))
        (process_production_style_log assign log_df)).Perm
      (List.map (fun p => production_as_start (Prod.snd p)) log_df ++
        List.map (fun p => production_as_complete (Prod.snd p)) log_df) := by
  have hdef : process_production_style_log assign log_df =
      convert_to_explicit_interval_log assign (reset_index (sort_values lifecycle_row_key
        (concat_ignore_index (List.map (fun p => (p.1, production_as_start p.2)) log_df)
          (List.map (fun p => (p.1, production_as_complete p.2)) log_df)))) := rfl
  constructor
  · rw [hdef, convert_pipeline_length, length_concat_ignore_index]
    simp only [List.length_map]
    omega
  · rw [hdef]
    refine (convert_pipeline_perm assign _).trans ?_
    rw [map_snd_concat_ignore_index, map_snd_map_pair, map_snd_map_pair]

/-- A row of the table produced by the top-level `log_formatter.py` when a
start timestamp column is mapped: case id, activity, timestamp and the
generated instance id. The lifecycle tagging of that module is commented out
in the source (lines 65-66), so there is no lifecycle column; the start
timestamp column is dropped (lines 61-63). The per-row `str(uuid.uuid4())`
of lines 52-54 is modelled as the injective fresh-id generator that hands the
row at position i the identifier i. -/
structure TLRow where
  case_id : String
  activity : String
  timestamp : Int
  instance_id : Nat
deriving DecidableEq, Repr

def tl_key (r : TLRow) : String × Int := (r.case_id, r.timestamp)

/-- The start-side row copied from input row r at position i
(`start_events_log`, lines 56-59: copy of the standard-named log with the
timestamp column overwritten by the start timestamp). -/
def tl_start_row (i : Nat) (r : ProductionRow) : TLRow :=
  { case_id := r.case_id, activity := r.activity, timestamp := r.start_timestamp,
    instance_id := i }

/-- The complete-side row of input row r at position i (`standard_named_log`
after the instance column is added, lines 50-54: the original timestamp). -/
def tl_complete_row (i : Nat) (r : ProductionRow) : TLRow :=
  { case_id := r.case_id, activity := r.activity, timestamp := r.timestamp,
    instance_id := i }

def tl_start_events (rs : List ProductionRow) : Table TLRow :=
  List.map (fun p => (p.1, tl_start_row p.1 p.2)) (List.enum rs)

def tl_complete_events (rs : List ProductionRow) : Table TLRow :=
  List.map (fun p => (p.1, tl_complete_row p.1 p.2)) (List.enum rs)

/-- The `event_log_formatter` of the top-level `log_formatter.py`, lines
31-78, on a standard-named production-style input with no instance column
mapped: assign a fresh instance id to every row, split into the start-events
copy and the complete rows, drop the start timestamp column, concatenate with
ignore_index, sort by (case_id, timestamp), and reset the index. -/
def event_log_formatter_production (rs : List ProductionRow) : Table TLRow :=
  let start_events_log := tl_start_events rs
  let standard_named_log := tl_complete_events rs
  let combined_df := concat_ignore_index start_events_log standard_named_log
  let combined_df := sort_values tl_key combined_df
  reset_index combined_df

/-- The matched (start, complete) pairs of the formatter: the two rows built
from one and the same input row, carrying the same generated instance id. -/
def tl_pairs (rs : List ProductionRow) : List (TLRow × TLRow) :=
  List.map (fun p => (tl_start_row p.1 p.2, tl_complete_row p.1 p.2)) (List.enum rs)

/-- The pairing-validity property claimed of the produced table: each matched
pair has both of its rows in the output, the start-side timestamp at most the
complete-side timestamp, an identical instance id on both rows, and an
instance id distinct from that of every other pair. -/
def pairing_validity (rs : List ProductionRow) : Prop :=
  ∀ i : Fin (tl_pairs rs).length,
    ((tl_pairs rs).get i).1 ∈ List.map Prod.snd (event_log_formatter_production rs) ∧
    ((tl_pairs rs).get i).2 ∈ List.map Prod.snd (event_log_formatter_production rs) ∧
    ((tl_pairs rs).get i).1.timestamp ≤ ((tl_pairs rs).get i).2.timestamp ∧
    ((tl_pairs rs).get i).1.instance_id = ((tl_pairs rs).get i).2.instance_id ∧
    ∀ j : Fin (tl_pairs rs).length, j ≠ i →
      ((tl_pairs rs).get j).1.instance_id ≠ ((tl_pairs rs).get i).1.instance_id

/-- Input refuting C4 as stated: one row whose start timestamp 10 exceeds its
complete timestamp 5; the formatter checks nothing about their order. -/
def c4_bad_log : List ProductionRow :=
  [{ case_id := "1", activity := "A", timestamp := 5, start_timestamp := 10 }]

/-- C4 counterexample — the formatter never compares the two timestamps: on
the one-row input with start timestamp 10 and complete timestamp 5, the
produced pair has a start-side timestamp strictly greater than its
complete-side timestamp, so the pairing-validity claim fails as stated. -/
theorem pairing_validity_refuted : ¬ pairing_validity c4_bad_log := by
  intro hp
  have h := hp ⟨0, by decide⟩
  have h4 : (10 : Int) ≤ 5 := h.2.2.1
  exact absurd h4 (by decide)

lemma map_snd_formatter_perm (rs : List ProductionRow) :
    (List.map Prod.snd (event_log_formatter_production rs)).Perm
      (List.map Prod.snd (tl_start_events rs) ++
        List.map Prod.snd (tl_complete_events rs)) := by
  unfold event_log_formatter_production
  rw [map_snd_reset_index]
  refine (map_snd_sort_values_perm tl_key _).trans ?_
  rw [map_snd_concat_ignore_index]

lemma length_tl_pairs (rs : List ProductionRow) : (tl_pairs rs).length = rs.length := by
  simp [tl_pairs]

lemma tl_pairs_lt (rs : List ProductionRow) (i : Fin (tl_pairs rs).length) :
    i.val < rs.length :=
  lt_of_lt_of_le i.isLt (le_of_eq (length_tl_pairs rs))

lemma tl_pairs_get (rs : List ProductionRow) (i : Fin (tl_pairs rs).length) :
    (tl_pairs rs).get i =
      (tl_start_row i.val (rs.get ⟨i.val, tl_pairs_lt rs i⟩),
        tl_complete_row i.val (rs.get ⟨i.val, tl_pairs_lt rs i⟩)) := by
  simp [tl_pairs, List.get_eq_getElem, List.getElem_map, List.getElem_enum]

lemma mem_map_snd_tl_start_events (rs : List ProductionRow) (i : Nat) (hi : i < rs.length) :
    tl_start_row i (rs.get ⟨i, hi⟩) ∈ List.map Prod.snd (tl_start_events rs) := by
  unfold tl_start_events
  rw [map_snd_map_pair2]
  have hlen : i < (List.map (fun p => tl_start_row p.1 p.2) (List.enum rs)).length := by
    simpa using hi
  have hval : (List.map (fun p => tl_start_row p.1 p.2) (List.enum rs)).get ⟨i, hlen⟩ =
      tl_start_row i (rs.get ⟨i, hi⟩) := by
    simp [List.get_eq_getElem, List.getElem_map, List.getElem_enum]
  rw [← hval]
  exact List.get_mem _ _ _

lemma mem_map_snd_tl_complete_events (rs : List ProductionRow) (i : Nat) (hi : i < rs.length) :
    tl_complete_row i (rs.get ⟨i, hi⟩) ∈ List.map Prod.snd (tl_complete_events rs) := by
  unfold tl_complete_events
  rw [map_snd_map_pair2]
  have hlen : i < (List.map (fun p => tl_complete_row p.1 p.2) (List.enum rs)).length := by
    simpa using hi
  have hval : (List.map (fun p => tl_complete_row p.1 p.2) (List.enum rs)).get ⟨i, hlen⟩ =
      tl_complete_row i (rs.get ⟨i, hi⟩) := by
    simp [List.get_eq_getElem, List.getElem_map, List.getElem_enum]
  rw [← hval]
  exact List.get_mem _ _ _

/-- C4 amended — pairing validity holds under the precondition that every
input row records a start timestamp at most its complete timestamp: then each
pair produced by the formatter has both rows in the output table, start-side
timestamp at most complete-side timestamp, one shared non-null instance id,
and ids pairwise distinct across pairs. The timestamp inequality is not
checked by the code, so the precondition is necessary (see the
counterexample). -/
theorem pairing_validity_amended (rs : List ProductionRow)
    (h : ∀ r ∈ rs, r.start_timestamp ≤ r.timestamp) : pairing_validity rs := by
  intro i
  have hi : i.val < rs.length := tl_pairs_lt rs i
  rw [tl_pairs_get]
  have hstart : tl_start_row i.val (rs.get ⟨i.val, hi⟩) ∈
      List.map Prod.snd (event_log_formatter_production rs) := by
    rw [List.Perm.mem_iff (map_snd_formatter_perm rs)]
    exact List.mem_append_left _ (mem_map_snd_tl_start_events rs i.val hi)
  have hcomplete : tl_complete_row i.val (rs.get ⟨i.val, hi⟩) ∈
      List.map Prod.snd (event_log_formatter_production rs) := by
    rw [List.Perm.mem_iff (map_snd_formatter_perm rs)]
    exact List.mem_append_right _ (mem_map_snd_tl_complete_events rs i.val hi)
  refine ⟨hstart, hcomplete, h _ (List.get_mem rs _ _), rfl, ?_⟩
  intro j hji
  rw [tl_pairs_get]
  intro hid
  exact hji (Fin.ext (by simpa [tl_start_row] using hid))

/-- A well-ordered one-row input: start timestamp 5, complete timestamp 10. -/
def c4_good_log : List ProductionRow :=
  [{ case_id := "1", activity := "A", timestamp := 10, start_timestamp := 5 }]

theorem pairing_validity_amended_witness : pairing_validity c4_good_log :=
  pairing_validity_amended c4_good_log (by decide)

/-- The fixed set of recognized canonical column names
(`constants.py` StandardColumnNames; the `STANDARD_COLUMN_NAMES` collection
consulted by `validate_column_mapping` is the set of those enum values). -/
def STANDARD_COLUMN_NAMES : List String :=
  ["case:concept:name", "concept:name", "time:timestamp", "start_timestamp",
   "cost:total", "human_resource", "org:role", "org:resource", "outcome_unit",
   "cost:fixed", "cost:variable", "cost:labor", "cost:inventory", "client",
   "cost:maintenance", "cost:missed_deadline", "cost:transportation",
   "cost:warehousing", "quality", "lifecycle:transition", "concept:instance"]

/-- The mandatory canonical columns (the three required fields of
`StandardColumnMapping`): case id, activity, timestamp. -/
def MANDATORY_COLUMN_NAMES : List String :=
  ["case:concept:name", "concept:name", "time:timestamp"]

/-- The `validate_column_mapping` of the top-level `column_mapping.py` lines
96-113: iterate over the mapping keys in order and raise, naming the field,
at the first key that is not a recognized canonical name; return True
otherwise. -/
def validate_column_mapping : List (String × String) → Except String Bool
  | [] => Except.ok true
  | (key, _) :: rest =>
    if key ∈ STANDARD_COLUMN_NAMES then validate_column_mapping rest
    else Except.error ("Column name " ++ key ++ " is not a standard column name.")

/-- Modelled from the spec: the module
`process_performance_indicators/formatting/column_mapping.py` whose
`validate_column_mapping(standard_mapping, source_columns)` is called by
`formatting/log_formatter.py` is not under `src/`. Per spec section 4.1 the
check requires every mandatory canonical column to be present in the source
table after the mapping is applied: each mandatory canonical name must be
mapped, and the source column it is mapped to must exist among the source log
columns; the first violation raises an error naming the column. -/
def check_mandatory_columns (mapping : List (String × String)) (source_columns : List String) :
    List String → Except String Bool
  | [] => Except.ok true
  | m :: rest =>
    match mapping.lookup m with
    | none =>
      Except.error ("Mandatory column " ++ m ++ " is missing from the column mapping.")
    | some v =>
      if v ∈ source_columns then check_mandatory_columns mapping source_columns rest
      else Except.error ("Mandatory column " ++ m ++ " is mapped to " ++ v ++
        " which is not found in the source log columns.")

/-- Modelled from the spec: full column-mapping validation against a source
table (the missing `formatting/column_mapping.py` version) — the key check of
the present top-level `validate_column_mapping` followed by the mandatory
column presence check of spec section 4.1. -/
def validate_column_mapping_with_source (mapping : List (String × String))
    (source_columns : List String) : Except String Bool :=
  match validate_column_mapping mapping with
  | Except.error e => Except.error e
  | Except.ok _ => check_mandatory_columns mapping source_columns MANDATORY_COLUMN_NAMES

lemma validate_keys_ok_iff (mapping : List (String × String)) :
    (∃ b, validate_column_mapping mapping = Except.ok b) ↔
      ∀ kv ∈ mapping, kv.1 ∈ STANDARD_COLUMN_NAMES := by
  induction mapping with
  | nil => simp [validate_column_mapping]
  | cons kv rest ih =>
    obtain ⟨k, v⟩ := kv
    by_cases hk : k ∈ STANDARD_COLUMN_NAMES
    · simpa [validate_column_mapping, hk] using ih
    · simp [validate_column_mapping, hk]

lemma check_mandatory_ok_iff (mapping : List (String × String)) (source_columns : List String)
    (ms : List String) :
    (∃ b, check_mandatory_columns mapping source_columns ms = Except.ok b) ↔
      ∀ m ∈ ms, ∃ v, mapping.lookup m = some v ∧ v ∈ source_columns := by
  induction ms with
  | nil => simp [check_mandatory_columns]
  | cons m rest ih =>
    cases hl : mapping.lookup m with
    | none => simp [check_mandatory_columns, hl]
    | some v =>
      by_cases hv : v ∈ source_columns
      · simpa [check_mandatory_columns, hl, hv] using ih
      · simp [check_mandatory_columns, hl, hv]

/-- C8 — column-mapping validation: validation succeeds exactly when every key
of the mapping is a recognized canonical name and every mandatory canonical
column is present in the source table after the mapping is applied; otherwise
it fails with a mapping error (whose message names the offending field, see
the error strings in the definitions). -/
theorem validate_mapping_spec (mapping : List (String × String)) (source_columns : List String) :
    (∃ b, validate_column_mapping_with_source mapping source_columns = Except.ok b) ↔
      ((∀ kv ∈ mapping, kv.1 ∈ STANDARD_COLUMN_NAMES) ∧
        ∀ m ∈ MANDATORY_COLUMN_NAMES, ∃ v, mapping.lookup m = some v ∧ v ∈ source_columns) := by
  unfold validate_column_mapping_with_source
  cases hv : validate_column_mapping mapping with
  | error e =>
    constructor
    · rintro ⟨b, hb⟩
      exact Except.noConfusion hb
    · rintro ⟨h1, _⟩
      obtain ⟨b, hb⟩ := (validate_keys_ok_iff mapping).mpr h1
      rw [hv] at hb
      exact Except.noConfusion hb
  | ok b =>
    rw [check_mandatory_ok_iff]
    constructor
    · intro h2
      exact ⟨(validate_keys_ok_iff mapping).mp ⟨b, hv⟩, h2⟩
    · rintro ⟨_, h2⟩
      exact h2

def c8_valid_mapping : List (String × String) :=
  [("case:concept:name", "Case"), ("concept:name", "Activity"), ("time:timestamp", "Timestamp")]

def c8_source_columns : List String := ["Case", "Activity", "Timestamp"]

theorem validate_mapping_spec_witness :
    (∃ b, validate_column_mapping_with_source c8_valid_mapping c8_source_columns =
      Except.ok b) ∧
    validate_column_mapping_with_source [("not_a_real_field", "X")] ["X"] =
      Except.error "Column name not_a_real_field is not a standard column name." :=
  ⟨(validate_mapping_spec c8_valid_mapping c8_source_columns).mpr (by decide), rfl⟩

/-- A raw pandas row for the aliasing model of the formatter: an association
list from column name to cell value (values kept as their stored string
representation, which the frame claim never inspects). -/
abbrev RawRow : Type := List (String × String)

/-- A raw pandas DataFrame: a list of raw rows. -/
abbrev RawTable : Type := List RawRow

/-- `DataFrame.rename(columns=inverted_mapping)`: returns a new frame with
every column name sent through the inverted mapping, unmapped names kept. -/
def rename_columns (inverted_mapping : List (String × String)) (t : RawTable) : RawTable :=
  t.map (fun row => row.map (fun cell => ((inverted_mapping.lookup cell.1).getD cell.1, cell.2)))

def row_value (row : RawRow) (col : String) : String :=
  (row.lookup col).getD ""

/-- Assignment to one column of one row: overwrite the cell when the column
exists, append it otherwise. -/
def row_set_value (row : RawRow) (col v : String) : RawRow :=
  if (row.lookup col).isSome then
    row.map (fun cell => if cell.1 == col then (cell.1, v) else cell)
  else
    row ++ [(col, v)]

/-- The in-place `standard_named_log[instance_key] = [str(uuid.uuid4()) ...]`
of `log_formatter.py` lines 52-54, the uuid source modelled as the injective
generator handing row position i the value "uuid-i". -/
def add_instance_column (t : RawTable) : RawTable :=
  (List.enum t).map (fun p => row_set_value p.2 "concept:instance" ("uuid-" ++ toString p.1))

/-- The in-place timestamp overwrite of lines 57-59: copy each row's start
timestamp value into its timestamp column. -/
def set_timestamp_from_start (t : RawTable) : RawTable :=
  t.map (fun row => row_set_value row "time:timestamp" (row_value row "start_timestamp"))

/-- `DataFrame.drop(columns=[col])`: returns a new frame without the column. -/
def drop_column (col : String) (t : RawTable) : RawTable :=
  t.map (fun row => row.filter (fun cell => cell.1 != col))

def raw_key (row : RawRow) : String × String :=
  (row_value row "case:concept:name", row_value row "time:timestamp")

def raw_le (a b : RawRow) : Prop := toLex (raw_key a) ≤ toLex (raw_key b)

instance : DecidableRel raw_le :=
  fun a b => inferInstanceAs (Decidable (toLex (raw_key a) ≤ toLex (raw_key b)))

/-- `sort_values(by=[case_id, timestamp])` followed by
`reset_index(drop=True)` on a freshly concatenated frame. -/
def sort_and_reset_raw (t : RawTable) : RawTable :=
  List.insertionSort raw_le t

/-- The top-level `event_log_formatter` of `log_formatter.py` lines 13-78 as a
heap program, making the aliasing explicit: the heap is a list of frames,
`a` is the address of the caller input frame. Line 31 copies the input into a
fresh cell before anything else; every later in-place mutation (`List.set`)
targets a cell allocated after entry, and every pandas operation returning a
new frame (`rename`, `copy`, `drop`, `concat`/`sort_values`/`reset_index`)
allocates a fresh cell. Returns the final heap and the address of the result
(or the validation error). -/
def event_log_formatter_heap (h : List RawTable) (a : Nat) (mapping : List (String × String)) :
    List RawTable × Except String Nat :=
  let b := h.length
  let h1 := h ++ [h.getD a []]
  match validate_column_mapping mapping with
  | Except.error e => (h1, Except.error e)
  | Except.ok _ =>
    let inverted_mapping := mapping.map (fun kv => (kv.2, kv.1))
    let c := h1.length
    let h2 := h1 ++ [rename_columns inverted_mapping (h1.getD b [])]
    if (mapping.lookup "start_timestamp").isNone then
      (h2, Except.ok c)
    else
      let h3 := if (mapping.lookup "concept:instance").isNone then
          h2.set c (add_instance_column (h2.getD c []))
        else h2
      let d := h3.length
      let h4 := h3 ++ [h3.getD c []]
      let h5 := h4.set d (set_timestamp_from_start (h4.getD d []))
      let e := h5.length
      let h6 := h5 ++ [drop_column "start_timestamp" (h5.getD c [])]
      let f := h6.length
      let h7 := h6 ++ [drop_column "start_timestamp" (h6.getD d [])]
      let g := h7.length
      let h8 := h7 ++ [sort_and_reset_raw (h7.getD f [] ++ h7.getD e [])]
      (h8, Except.ok g)

/-- The heap at `h1` agrees with the heap at `h0` on every address below
`h0.length` (and has not shrunk). -/
def heap_frame (h0 h1 : List RawTable) : Prop :=
  h0.length ≤ h1.length ∧ ∀ i, i < h0.length → h1[i]? = h0[i]?

lemma heap_frame_refl (h0 : List RawTable) : heap_frame h0 h0 :=
  ⟨le_refl _, fun _ _ => rfl⟩

lemma heap_frame_append (h0 h1 : List RawTable) (x : RawTable) (hf : heap_frame h0 h1) :
    heap_frame h0 (h1 ++ [x]) := by
  refine ⟨le_trans hf.1 (by simp), fun i hi => ?_⟩
  rw [List.getElem?_append_left (lt_of_lt_of_le hi hf.1), hf.2 i hi]

lemma heap_frame_set (h0 h1 : List RawTable) (x : RawTable) (j : Nat)
    (hf : heap_frame h0 h1) (hj : h0.length ≤ j) : heap_frame h0 (h1.set j x) := by
  refine ⟨by simpa using hf.1, fun i hi => ?_⟩
  rw [List.getElem?_set_ne (by omega), hf.2 i hi]

/-- C10 — the formatter leaves its caller's frame unchanged: for every heap,
every address of an input frame in it and every column mapping, the heap
produced by running the formatter (whether it returns a result address or
raises a validation error) holds, at the input address, exactly the frame that
was there before the call. -/
theorem event_log_formatter_frame (h : List RawTable) (a : Nat)
    (mapping : List (String × String)) (ha : a < h.length) :
    ((event_log_formatter_heap h a mapping).1)[a]? = h[a]? := by
  have hstep : heap_frame h (event_log_formatter_heap h a mapping).1 := by
    have hf1 : heap_frame h (h ++ [h.getD a []]) :=
      heap_frame_append h h _ (heap_frame_refl h)
    have hf2 : heap_frame h ((h ++ [h.getD a []]) ++
        [rename_columns (mapping.map (fun kv => (kv.2, kv.1)))
          ((h ++ [h.getD a []]).getD h.length [])]) :=
      heap_frame_append h _ _ hf1
    unfold event_log_formatter_heap
    dsimp only
    split
    · exact hf1
    · split
      · exact hf2
      · by_cases hin : (mapping.lookup "concept:instance").isNone = true
        · simp only [if_pos hin]
          refine heap_frame_append h _ _ (heap_frame_append h _ _ (heap_frame_append h _ _
            (heap_frame_set h _ _ _ (heap_frame_append h _ _
              (heap_frame_set h _ _ _ hf2 (by simp))) (by simp))))
        · simp only [if_neg hin]
          refine heap_frame_append h _ _ (heap_frame_append h _ _ (heap_frame_append h _ _
            (heap_frame_set h _ _ _ (heap_frame_append h _ _ hf2) (by simp))))
  exact hstep.2 a ha

def c10_table : RawTable :=
  [[("Case", "1"), ("Activity", "A"), ("Timestamp", "5"), ("Begin", "3")]]

def c10_mapping : List (String × String) :=
  [("case:concept:name", "Case"), ("concept:name", "Activity"),
   ("time:timestamp", "Timestamp"), ("start_timestamp", "Begin")]

theorem event_log_formatter_frame_witness :
    ((event_log_formatter_heap [c10_table] 0 c10_mapping).1)[0]? = [c10_table][0]? :=
  event_log_formatter_frame [c10_table] 0 c10_mapping (by decide)

end PPI

